import Mathlib

/-!
Verification of the seal-calibration device-format codec and calibration
orchestration, as a shallow embedding of the Python sources
(`seal_calibration/models`, `seal_calibration/io`, `seal_calibration/core`,
`examples/stereo_to_seal.py`).

Modelling conventions:
* Python `float` values are modelled as `ℚ`; the device format only ever
  renders and parses plain decimal literals, and every claim about numbers
  is a claim about 6-decimal fixed-point quantities.
* A text line is a `List Char` (`Str`); a file is a `List Str` of the lines
  after Python's `readlines()` + `strip()` step.  `"{:.6f}".format`,
  `str.split()`, `" ".join`, `int()` and `float()` are given explicit
  definitions below that mirror Python's behaviour on the inputs the codec
  produces and consumes (decimal literals without exponents; the files never
  contain exponent/inf/nan forms).
* The OpenCV optimization engine is an external collaborator; calibration
  functions take it as an explicit function argument.
-/

deriving instance DecidableEq for Except

namespace SealCalib

/-- Text modelled as a list of characters, so that line and field identity is
byte identity. -/
abbrev Str := List Char

/-- Helper for `pyWords`: accumulates the current (reversed) word while
scanning, mirroring how `str.split()` discards empty fields between
whitespace runs. -/
def wordsAux : Str → Str → List Str
  | [], acc => if acc.isEmpty then [] else [acc.reverse]
  | c :: cs, acc =>
    if c.isWhitespace then
      if acc.isEmpty then wordsAux cs [] else acc.reverse :: wordsAux cs []
    else wordsAux cs (c :: acc)

/-- Python `str.split()` with no argument: split on runs of whitespace,
discarding empty fields. -/
def pyWords (s : Str) : List Str := wordsAux s []

/-- Python `" ".join(tokens)`. -/
def joinSp : List Str → Str
  | [] => []
  | [t] => t
  | t :: ts => t ++ ' ' :: joinSp ts

/-- Python `str.startswith(pat)`. -/
def strStartsWith (s pat : Str) : Bool := List.isPrefixOf pat s

/-- Substring after the first occurrence of `pat`, or `none`; models the
position where `re.search` finds a fixed key. -/
def afterFirst (pat : Str) : Str → Option Str
  | [] => if pat.isEmpty then some [] else none
  | c :: rest =>
    if List.isPrefixOf pat (c :: rest) then some ((c :: rest).drop pat.length)
    else afterFirst pat rest

/-- Models `re.search(key + "([^chars]+)", line)`: the maximal nonempty run
after the first occurrence of `key` consisting of characters for which
`stop` is false.  (The Python regex would retry later occurrences when the
run at the first one is empty; SEAL footers always have a nonempty value
after each key, so the first occurrence suffices.) -/
def reCapture (key : Str) (stop : Char → Bool) (line : Str) : Option Str :=
  match afterFirst key line with
  | none => none
  | some rest =>
    let run := rest.takeWhile (fun c => !stop c)
    if run.isEmpty then none else some run

/-- The `[^\*]` character class of the footer regexes. -/
def stopStar (c : Char) : Bool := c = '*'

/-- The `[^\s\*]` character class of the `SoftVersion` regex. -/
def stopStarWs (c : Char) : Bool := c = '*' || c.isWhitespace

/-- Decimal digit value to character, `'0'`–`'9'`. -/
def digitChar (d : ℕ) : Char := Char.ofNat (48 + d)

/-- Character to decimal digit value. -/
def charVal (c : Char) : ℕ := c.toNat - 48

/-- Little-endian base-10 digits by fuel-bounded structural recursion, so
the kernel can evaluate it; proven below to agree with `Nat.digits 10`. -/
def natDigitsAux : ℕ → ℕ → List ℕ
  | 0, _ => []
  | _ + 1, 0 => []
  | fuel + 1, n + 1 => ((n + 1) % 10) :: natDigitsAux fuel ((n + 1) / 10)

/-- Little-endian base-10 digits of `n`. -/
def natDigits (n : ℕ) : List ℕ := natDigitsAux n n

/-- Decimal rendering of a natural number, as Python prints integers. -/
def natChars (n : ℕ) : Str :=
  if n = 0 then ['0'] else ((natDigits n).reverse.map digitChar)

/-- Decimal rendering of an integer, as Python prints `int` values. -/
def intChars (i : ℤ) : Str :=
  if i < 0 then '-' :: natChars i.natAbs else natChars i.natAbs

/-- Value of a digit string (most significant first). -/
def charsVal (s : Str) : ℕ := s.foldl (fun a c => a * 10 + charVal c) 0

/-- Python `int(token)` on the tokens the codec meets: an optional sign
followed by decimal digits. -/
def parseIntChars (s : Str) : Option ℤ :=
  match s with
  | [] => none
  | c :: rest =>
    if c = '-' then
      if rest ≠ [] ∧ rest.all Char.isDigit then some (-(charsVal rest : ℤ)) else none
    else if c = '+' then
      if rest ≠ [] ∧ rest.all Char.isDigit then some ((charsVal rest : ℤ)) else none
    else if (c :: rest).all Char.isDigit then some ((charsVal (c :: rest) : ℤ))
    else none

/-- Zero-padded 6-digit rendering of `m < 10^6`, the fractional part of a
`"{:.6f}"` rendering. -/
def pad6 (m : ℕ) : Str :=
  let ds := natChars m
  List.replicate (6 - ds.length) '0' ++ ds

/-- The integer `round(q * 10^6)` used by a fixed 6-decimal rendering.  The
Python runtime rounds the closest double; ties cannot be observed at the
6-decimal contract granularity, so we fix round-half-up.  Written with
integer floor division (proven below to equal `⌊q * 10^6 + 1/2⌋`) so the
kernel can evaluate it. -/
def rnd6 (q : ℚ) : ℤ := (2 * q.num * 1000000 + (q.den : ℤ)) / (2 * (q.den : ℤ))

/-- The rational actually denoted by the 6-decimal rendering of `q`: the
quantization of `q` to 6 decimal places. -/
def q6 (q : ℚ) : ℚ := (rnd6 q : ℚ) / 1000000

/-- Python `"{:.6f}".format(q)`: sign, integer part, `'.'`, 6 fractional
digits. -/
def fmt6Chars (q : ℚ) : Str :=
  let n := rnd6 q
  let a := n.natAbs
  (if n < 0 then ['-'] else []) ++ natChars (a / 1000000) ++ '.' :: pad6 (a % 1000000)

/-- Split at the first `'.'`, if any. -/
def splitDot : Str → Str × Option Str
  | [] => ([], none)
  | c :: r => if c = '.' then ([], some r) else ⟨c :: (splitDot r).1, (splitDot r).2⟩

/-- The optional leading sign of a Python numeric literal. -/
def signSplit (s : Str) : ℚ × Str :=
  match s with
  | [] => (1, [])
  | c :: r => if c = '-' then (-1, r) else if c = '+' then (1, r) else (1, c :: r)

/-- Python `float(token)` on plain decimal literals (optional sign, digits,
optional point): the only float syntax the SEAL codec ever writes or needs
to read. -/
def parseFloatChars (s : Str) : Option ℚ :=
  match (splitDot (signSplit s).2).2 with
  | none =>
    if (splitDot (signSplit s).2).1 ≠ [] ∧ ((splitDot (signSplit s).2).1).all Char.isDigit then
      some ((signSplit s).1 * (charsVal (splitDot (signSplit s).2).1 : ℚ))
    else none
  | some fp =>
    if ((splitDot (signSplit s).2).1 ≠ [] ∨ fp ≠ []) ∧
        ((splitDot (signSplit s).2).1).all Char.isDigit ∧ fp.all Char.isDigit then
      some ((signSplit s).1 *
        ((charsVal (splitDot (signSplit s).2).1 : ℚ) + (charsVal fp : ℚ) / 10 ^ fp.length))
    else none

/-- A 3×3 (or n×m) numeric array, row major, as the codec reads and writes
them. -/
abbrev Mat := List (List ℚ)

/-- A detected 2D image point. -/
abbrev Pt2 := ℚ × ℚ

/-- A 3D object point. -/
abbrev Pt3 := ℚ × ℚ × ℚ

/-- models/camera_params.py `CameraParams`: intrinsic matrix, distortion
coefficients (flattened), image size, RMS error, optional per-image pose
vectors. -/
structure CameraParams where
  K : Mat
  dist : List ℚ
  img_size : ℤ × ℤ
  rms_error : ℚ
  rvecs : Option (List (List ℚ)) := none
  tvecs : Option (List (List ℚ)) := none
deriving DecidableEq

namespace CameraParams

/-- `K[0, 0]`. -/
def fx (p : CameraParams) : ℚ := (p.K.getD 0 []).getD 0 0

/-- `K[1, 1]`. -/
def fy (p : CameraParams) : ℚ := (p.K.getD 1 []).getD 1 0

/-- `K[0, 2]`. -/
def cx (p : CameraParams) : ℚ := (p.K.getD 0 []).getD 2 0

/-- `K[1, 2]`. -/
def cy (p : CameraParams) : ℚ := (p.K.getD 1 []).getD 2 0

/-- `dist_flat[0] if len(dist_flat) > 0 else 0.0`. -/
def k1 (p : CameraParams) : ℚ := p.dist.getD 0 0

/-- `dist_flat[1] if len(dist_flat) > 1 else 0.0`. -/
def k2 (p : CameraParams) : ℚ := p.dist.getD 1 0

/-- `dist_flat[2] if len(dist_flat) > 2 else 0.0`. -/
def p1 (p : CameraParams) : ℚ := p.dist.getD 2 0

/-- `dist_flat[3] if len(dist_flat) > 3 else 0.0`. -/
def p2 (p : CameraParams) : ℚ := p.dist.getD 3 0

/-- `dist_flat[4] if len(dist_flat) > 4 else 0.0`. -/
def k3 (p : CameraParams) : ℚ := p.dist.getD 4 0

/-- `dist_flat[5] if len(dist_flat) > 5 else 0.0` (rational model). -/
def k4 (p : CameraParams) : ℚ := p.dist.getD 5 0

/-- `dist_flat[6] if len(dist_flat) > 6 else 0.0` (rational model). -/
def k5 (p : CameraParams) : ℚ := p.dist.getD 6 0

/-- `dist_flat[7] if len(dist_flat) > 7 else 0.0` (rational model). -/
def k6 (p : CameraParams) : ℚ := p.dist.getD 7 0

end CameraParams

/-- models/stereo_params.py `StereoParams`. -/
structure StereoParams where
  K_left : Mat
  dist_left : List ℚ
  K_right : Mat
  dist_right : List ℚ
  R : Mat
  T : Mat
  E : Mat
  F : Mat
  rms_error : ℚ
  img_size : ℤ × ℤ
deriving DecidableEq

/-- The metadata dictionary: the four keys the codec reads and writes. -/
structure Metadata where
  dev_id : Option Str := none
  date : Option Str := none
  mtype : Option Str := none
  version : Option Str := none
deriving DecidableEq

/-- Python truthiness of the metadata dict (`if self.metadata:`). -/
def mdNonEmpty (m : Metadata) : Bool :=
  m.dev_id.isSome || m.date.isSome || m.mtype.isSome || m.version.isSome

/-- models/seal_calib.py `SEALCalibration`. -/
structure SEALCalibration where
  resolution : ℤ × ℤ
  scale_factors : ℚ × ℚ
  offset_center : ℤ × ℤ
  offset_tilt : ℤ × ℤ
  camera_left : CameraParams
  camera_right : CameraParams
  stereo : StereoParams
  lut_table : Option (List (List ℚ)) := none
  metadata : Metadata := {}
deriving DecidableEq

/-- Rendering of a LUT entry by `" ".join(map(str, row))`.  Python prints a
float64 as its shortest round-tripping decimal; we model it as a fixed
decimal rendering — every claim is insensitive to LUT digit strings, which
only need to be non-`***` numeric tokens. -/
def pyFloatRepr (q : ℚ) : Str := fmt6Chars q

/-- The constant projector placeholder line of `to_seal_format` (line 7). -/
def projectorLine : Str :=
  "2800.000000 2477.000000 542.000000 353.000000 -0.220000 -0.295000 -0.000011 -0.000875 4.029662 -0.007206 -0.133619 -0.003511 28.377724 0.011272 1.662601".data

/-- The footer built by `to_seal_format` when the metadata dict is truthy:
`Type` is hard-coded to the recalibration label, the other fields take the
stored metadata values with the source's defaults. -/
def directFooter (m : Metadata) : Str :=
  "***DevID:".data ++ m.dev_id.getD ("UNKNOWN".data) ++
  "***CalibrateDate:".data ++ m.date.getD ("2024-01-01_00-00-00".data) ++
  "***Type:Sychev-calibration***SoftVersion:".data ++ m.version.getD ("3.0.0.1116".data)

/-- The 15-field camera line of `to_seal_format` (lines 5 and 6): the 12
calibration fields at 6 decimals plus three literal zero fields. -/
def directCameraLine (p : CameraParams) : Str :=
  joinSp [fmt6Chars p.fx, fmt6Chars p.fy, fmt6Chars p.cx, fmt6Chars p.cy,
          fmt6Chars p.k1, fmt6Chars p.k2, fmt6Chars p.p1, fmt6Chars p.p2,
          fmt6Chars p.k3, fmt6Chars p.k4, fmt6Chars p.k5, fmt6Chars p.k6,
          "0.000000".data, "0.000000".data, "0.000000".data]

/-- models/seal_calib.py `SEALCalibration.to_seal_format`, as the list of
lines it joins with newlines (writer.py `_write_direct` writes exactly these
lines plus a final newline). -/
def to_seal_format (c : SEALCalibration) : List Str :=
  [joinSp [intChars c.resolution.1, intChars c.resolution.2],
   joinSp [fmt6Chars c.scale_factors.1, fmt6Chars c.scale_factors.2],
   joinSp [intChars c.offset_center.1, intChars c.offset_center.2],
   joinSp [intChars c.offset_tilt.1, intChars c.offset_tilt.2],
   directCameraLine c.camera_left,
   directCameraLine c.camera_right,
   projectorLine] ++
  (match c.lut_table with
   | none => []
   | some t => t.map (fun row => joinSp (row.map pyFloatRepr))) ++
  (if mdNonEmpty c.metadata then [directFooter c.metadata] else [])

/-- The backward scan `for i in range(len(lines)-1, 5, -1)` used both by the
writer and the loader to locate the footer: the largest index `i ≥ 6` whose
line starts with the DevID marker, defaulting to the last line. -/
def findFooterIdx (lines : List Str) : ℕ :=
  (((List.range lines.length).filter
      (fun i => decide (6 ≤ i) && strStartsWith (lines.getD i []) ("***DevID:".data))).getLast?).getD
    (lines.length - 1)

/-- writer.py `_format_camera_line`: 12 calibration fields at 6 decimals;
fields 13–15 of the template line are carried over when the template line
has at least 15 fields. -/
def formatCameraLine (p : CameraParams) (template_line : Str) : Str :=
  let template_vals := pyWords template_line
  let extra_params := if 15 ≤ template_vals.length then (template_vals.drop 9).take 6 else []
  let parts := [fmt6Chars p.fx, fmt6Chars p.fy, fmt6Chars p.cx, fmt6Chars p.cy,
                fmt6Chars p.k1, fmt6Chars p.k2, fmt6Chars p.p1, fmt6Chars p.p2,
                fmt6Chars p.k3, fmt6Chars p.k4, fmt6Chars p.k5, fmt6Chars p.k6]
  let parts := parts ++ (if 3 < extra_params.length then (extra_params.drop 3).take 3 else [])
  joinSp parts

/-- writer.py `_update_metadata_line`: DevID and SoftVersion from the caller
or else recovered from the old line (with source defaults), `Type` forced to
the recalibration label, `CalibrateDate` replaced with `now` (the
`datetime.now().strftime(...)` value, passed explicitly here). -/
def updateMetadataLine (old : Str) (dev_id : Option Str) (soft_version : Option Str)
    (now : Str) : Str :=
  let sv := match soft_version with
    | some v => v
    | none => (reCapture ("SoftVersion:".data) stopStarWs old).getD ("3.0.0.1116".data)
  let dv := match dev_id with
    | some v => v
    | none => (reCapture ("DevID:".data) stopStar old).getD ("UNKNOWN".data)
  "***DevID:".data ++ dv ++ "***CalibrateDate:".data ++ now ++
    "***Type:Sychev-calibration***SoftVersion:".data ++ sv

/-- writer.py `_write_with_template`: template lines in, merged lines out;
raises (`ValueError`) when the template has fewer than 10 lines.  Only
indices 0 (resolution), 4 (left camera) and the footer index are assigned. -/
def writeWithTemplate (c : SEALCalibration) (now : Str) (tmpl : List Str) :
    Except Str (List Str) :=
  if tmpl.length < 10 then .error ("Template file too short".data) else
  let lines1 := tmpl.set 0 (joinSp [intChars c.resolution.1, intChars c.resolution.2])
  let lines2 := lines1.set 4 (formatCameraLine c.camera_left (lines1.getD 4 []))
  let mIdx := findFooterIdx lines2
  .ok (lines2.set mIdx
    (updateMetadataLine (lines2.getD mIdx []) c.metadata.dev_id c.metadata.version now))

/-- The failure cases of loader.py `SEALCalibrationLoader.load` (`ValueError`
with a line-identifying message). -/
inductive LoadErr where
  | tooFewLines (n : ℕ)
  | badIntLine (idx : ℕ)
  | badFloatLine (idx : ℕ)
  | camTooFewVals (n : ℕ)
deriving DecidableEq

/-- Failure-propagating traversal: models `list(map(f, tokens))` where `f`
raises on a bad token. -/
def mapOpt {α β : Type} (f : α → Option β) : List α → Option (List β)
  | [] => some []
  | x :: xs =>
    match f x, mapOpt f xs with
    | some y, some ys => some (y :: ys)
    | _, _ => none

/-- `list(map(int, line.split()))`: any unparsable token fails the line. -/
def parseIntsOf (l : Str) : Option (List ℤ) := mapOpt parseIntChars (pyWords l)

/-- `list(map(float, line.split()))`: any unparsable token fails the line. -/
def parseFloatsOf (l : Str) : Option (List ℚ) := mapOpt parseFloatChars (pyWords l)

/-- loader.py `_parse_camera_params` on its single line: at least 9 floats;
k4–k6 default to 0 when absent; K and the 8-coefficient dist row are
rebuilt. -/
def parseCameraLine (idx : ℕ) (l : Str) (img_size : ℤ × ℤ) :
    Except LoadErr CameraParams :=
  match parseFloatsOf l with
  | none => .error (.badFloatLine idx)
  | some vals =>
    if vals.length < 9 then .error (.camTooFewVals vals.length) else
    let fx := vals.getD 0 0
    let fy := vals.getD 1 0
    let cx := vals.getD 2 0
    let cy := vals.getD 3 0
    let k1 := vals.getD 4 0
    let k2 := vals.getD 5 0
    let p1 := vals.getD 6 0
    let p2 := vals.getD 7 0
    let k3 := vals.getD 8 0
    let k4 := vals.getD 9 0
    let k5 := vals.getD 10 0
    let k6 := vals.getD 11 0
    .ok { K := [[fx, 0, cx], [0, fy, cy], [0, 0, 1]],
          dist := [k1, k2, p1, p2, k3, k4, k5, k6],
          img_size := img_size,
          rms_error := 0 }

/-- loader.py `_parse_lut_table` row loop: skip empty and `***` lines; a
parse failure anywhere sends the whole table to `None` (the `except`
branch). -/
def parseLutRows : List Str → Option (List (List ℚ))
  | [] => some []
  | l :: ls =>
    if l ≠ [] ∧ ¬ strStartsWith l ("***".data) then
      match parseFloatsOf l, parseLutRows ls with
      | some vals, some rest => some (if vals.isEmpty then rest else vals :: rest)
      | _, _ => none
    else parseLutRows ls

/-- loader.py `_parse_lut_table`: `None` when nothing parsed. -/
def parseLutTable (rows : List Str) : Option (List (List ℚ)) :=
  match parseLutRows rows with
  | none => none
  | some [] => none
  | some t => some t

/-- loader.py `_parse_metadata`: the four regex captures. -/
def parseMetadata (l : Str) : Metadata :=
  { dev_id := reCapture ("DevID:".data) stopStar l
    date := reCapture ("CalibrateDate:".data) stopStar l
    mtype := reCapture ("Type:".data) stopStar l
    version := reCapture ("SoftVersion:".data) stopStarWs l }

/-- The 3×3 identity placed in the loaded stereo block. -/
def eye3 : Mat := [[1, 0, 0], [0, 1, 0], [0, 0, 1]]

/-- A 3×3 zero matrix. -/
def zeros33 : Mat := [[0, 0, 0], [0, 0, 0], [0, 0, 0]]

/-- A 3×1 zero vector. -/
def zeros31 : Mat := [[0], [0], [0]]

/-- loader.py `SEALCalibrationLoader.load`, over the stripped lines of the
file.  Python builds tuples of whatever arity the line has; the model's
pair-typed record takes the first two entries (0-defaulted), which agrees
with Python on every file this codec writes. -/
def load (lines : List Str) : Except LoadErr SEALCalibration :=
  if lines.length < 10 then .error (.tooFewLines lines.length) else
  match parseIntsOf (lines.getD 0 []) with
  | none => .error (.badIntLine 0)
  | some res =>
  match parseFloatsOf (lines.getD 1 []) with
  | none => .error (.badFloatLine 1)
  | some sf =>
  match parseIntsOf (lines.getD 2 []) with
  | none => .error (.badIntLine 2)
  | some oc =>
  match parseIntsOf (lines.getD 3 []) with
  | none => .error (.badIntLine 3)
  | some ot =>
  let resolution : ℤ × ℤ := (res.getD 0 0, res.getD 1 0)
  match parseCameraLine 4 (lines.getD 4 []) resolution with
  | .error e => .error e
  | .ok left_params =>
  match parseCameraLine 5 (lines.getD 5 []) resolution with
  | .error e => .error e
  | .ok right_params =>
  let mIdx := findFooterIdx lines
  let lut := if 7 < mIdx then parseLutTable ((lines.drop 7).take (mIdx - 7)) else none
  let metadata := parseMetadata (lines.getD mIdx [])
  .ok { resolution := resolution
        scale_factors := (sf.getD 0 0, sf.getD 1 0)
        offset_center := (oc.getD 0 0, oc.getD 1 0)
        offset_tilt := (ot.getD 0 0, ot.getD 1 0)
        camera_left := left_params
        camera_right := right_params
        stereo := { K_left := left_params.K, dist_left := left_params.dist
                    K_right := right_params.K, dist_right := right_params.dist
                    R := eye3, T := zeros31, E := zeros33, F := zeros33
                    rms_error := 0, img_size := resolution }
        lut_table := lut
        metadata := metadata }

/-- The argument record of a `cv2.stereoCalibrate` call: the engine's
first/primary camera slots (`imgpoints1`, `K1`, `dist1`) and second slots. -/
structure StereoEngineIn where
  objpoints : List (List Pt3)
  imgpoints1 : List (List Pt2)
  imgpoints2 : List (List Pt2)
  K1 : Mat
  dist1 : List ℚ
  K2 : Mat
  dist2 : List ℚ
  img_size : ℤ × ℤ
deriving DecidableEq

/-- The tuple `cv2.stereoCalibrate` returns: RMS, refined first-camera and
second-camera intrinsics/distortion, then R, T, E, F. -/
structure StereoEngineOut where
  rms : ℚ
  K1 : Mat
  dist1 : List ℚ
  K2 : Mat
  dist2 : List ℚ
  R : Mat
  T : Mat
  E : Mat
  F : Mat
deriving DecidableEq

/-- The argument record core/stereo.py `StereoCalibrator.calibrate` builds
for the engine: the RIGHT camera's data in the first/primary slots and the
LEFT camera's in the second slots. -/
def stereoEngineArgs (objpoints : List (List Pt3))
    (imgpoints_left imgpoints_right : List (List Pt2))
    (camera_left camera_right : CameraParams) (img_size : ℤ × ℤ) : StereoEngineIn :=
  { objpoints := objpoints
    imgpoints1 := imgpoints_right
    imgpoints2 := imgpoints_left
    K1 := camera_right.K
    dist1 := camera_right.dist
    K2 := camera_left.K
    dist2 := camera_left.dist
    img_size := img_size }

namespace StereoCalibrator

/-- core/stereo.py `StereoCalibrator.calibrate`: invoke the engine with the
right-first argument order and unpack the engine's first-camera outputs into
`K_right`/`dist_right` and its second-camera outputs into
`K_left`/`dist_left`.  The engine (`cv2.stereoCalibrate` with
`CALIB_FIX_INTRINSIC | CALIB_RATIONAL_MODEL`) is an explicit argument. -/
def calibrate (engine : StereoEngineIn → StereoEngineOut)
    (objpoints : List (List Pt3)) (imgpoints_left imgpoints_right : List (List Pt2))
    (camera_left camera_right : CameraParams) (img_size : ℤ × ℤ) : StereoParams :=
  let out := engine (stereoEngineArgs objpoints imgpoints_left imgpoints_right
    camera_left camera_right img_size)
  { K_left := out.K2
    dist_left := out.dist2
    K_right := out.K1
    dist_right := out.dist1
    R := out.R
    T := out.T
    E := out.E
    F := out.F
    rms_error := out.rms
    img_size := img_size }

end StereoCalibrator

/-- The tuple `cv2.calibrateCamera` returns. -/
structure SingleEngineOut where
  rms : ℚ
  K : Mat
  dist : List ℚ
  rvecs : List (List ℚ)
  tvecs : List (List ℚ)
deriving DecidableEq

namespace CameraCalibrator

/-- core/camera.py `CameraCalibrator.calibrate`: no correspondence-count
guard of any kind — it delegates directly to the engine
(`cv2.calibrateCamera`, an explicit argument here) and wraps the result. -/
def calibrate (engine : List (List Pt3) → List (List Pt2) → (ℤ × ℤ) → SingleEngineOut)
    (objpoints : List (List Pt3)) (imgpoints : List (List Pt2))
    (img_size : ℤ × ℤ) : CameraParams :=
  let out := engine objpoints imgpoints img_size
  { K := out.K
    dist := out.dist
    img_size := img_size
    rms_error := out.rms
    rvecs := some out.rvecs
    tvecs := some out.tvecs }

end CameraCalibrator

/-- The correspondence-count guard of examples/stereo_to_seal.py
`process_from_images` (lines 100–101): `RuntimeError` when fewer than 4
valid sets were collected, before any calibration call. -/
def enoughPairsGuard (n : ℕ) : Except Str Unit :=
  if n < 4 then .error (("Not enough valid images: ".data) ++ natChars n) else .ok ()

/-- examples/stereo_to_seal.py `main` (lines 174–189): the `SEALCalibration`
assembled for writing — factory groups and LUT from the loaded template,
cameras taken directly from the single-camera results, resolution forced to
1280×720 by this caller, metadata rebuilt (`now` is the
`datetime.now().strftime(...)` value). -/
def stereoToSealAssemble (camera_left camera_right : CameraParams)
    (stereo : StereoParams) (template_calib : SEALCalibration)
    (dev_id now : Str) : SEALCalibration :=
  { resolution := (1280, 720)
    scale_factors := template_calib.scale_factors
    offset_center := template_calib.offset_center
    offset_tilt := template_calib.offset_tilt
    camera_left := camera_left
    camera_right := camera_right
    stereo := stereo
    lut_table := template_calib.lut_table
    metadata := { dev_id := some dev_id
                  date := some now
                  mtype := some ("Sychev-calibration".data)
                  version := some ("3.0.0.1116".data) } }

/-- examples/stereo_calibration_complete.py `main` (lines 360–372): the
post-stereo reconciliation — keep the single-camera K, adopt the stereo
step's refined distortion vector. -/
def reconcileWithStereo (cam : CameraParams) (stereo_dist : List ℚ)
    (img_size : ℤ × ℤ) : CameraParams :=
  { K := cam.K
    dist := stereo_dist
    img_size := img_size
    rms_error := cam.rms_error }

/-- `int(q)` on a Python float: truncation toward zero. -/
def pyTrunc (q : ℚ) : ℤ := q.num.tdiv q.den

/-- The grid cell a point marks in core/validation.py
`check_calibration_coverage`: `(cell_y, cell_x)` with
`cell = min(int(coord / cell_size), grid - 1)`. -/
def cellOf (w h : ℤ) (gw gh : ℕ) (pt : Pt2) : ℤ × ℤ :=
  let x := pyTrunc pt.1
  let y := pyTrunc pt.2
  let cx := min (pyTrunc ((x : ℚ) / ((w : ℚ) / (gw : ℚ)))) ((gw : ℤ) - 1)
  let cy := min (pyTrunc ((y : ℚ) / ((h : ℚ) / (gh : ℚ)))) ((gh : ℤ) - 1)
  (cy, cx)

/-- The set of cells marked `True` in the `covered` array. -/
def coveredCells (imgpoints : List (List Pt2)) (w h : ℤ) (gw gh : ℕ) :
    Finset (ℤ × ℤ) :=
  ((imgpoints.map (fun pts => pts.map (cellOf w h gw gh))).flatten).toFinset

/-- core/validation.py `CalibrationValidator.check_calibration_coverage`:
fraction of grid cells containing at least one detected point. -/
def check_calibration_coverage (imgpoints : List (List Pt2))
    (img_size : ℤ × ℤ) (grid_size : ℕ × ℕ) : ℚ :=
  ((coveredCells imgpoints img_size.1 img_size.2 grid_size.1 grid_size.2).card : ℚ) /
    ((grid_size.1 : ℚ) * (grid_size.2 : ℚ))

/-- The 12 calibration fields of a camera, in device-file order. -/
def camFields (p : CameraParams) : List ℚ :=
  [p.fx, p.fy, p.cx, p.cy, p.k1, p.k2, p.p1, p.p2, p.k3, p.k4, p.k5, p.k6]

/-- The camera record the loader reconstructs from a line that `write`
produced for `p`: every field 6-decimal quantized (derived shorthand used to
state the round-trip law). -/
def loadedCam (p : CameraParams) (r : ℤ × ℤ) : CameraParams :=
  { K := [[q6 p.fx, 0, q6 p.cx], [0, q6 p.fy, q6 p.cy], [0, 0, 1]],
    dist := [q6 p.k1, q6 p.k2, q6 p.p1, q6 p.p2, q6 p.k3, q6 p.k4, q6 p.k5, q6 p.k6],
    img_size := r,
    rms_error := 0 }

/-- Concrete camera fixture with a 5-coefficient (standard-model)
distortion, for the concrete-instance theorems. -/
def wCam : CameraParams :=
  { K := [[1100, 0, 320], [0, 1000, 240], [0, 0, 1]],
    dist := [1, 2, 3, 4, 5],
    img_size := (1280, 720),
    rms_error := 0 }

/-- Concrete stereo fixture whose refined distortion has 8 coefficients. -/
def wStereo8 : StereoParams :=
  { K_left := wCam.K, dist_left := [1, 2, 3, 4, 5, 6, 7, 8],
    K_right := wCam.K, dist_right := [1, 2, 3, 4, 5, 6, 7, 8],
    R := eye3, T := zeros31, E := zeros33, F := zeros33,
    rms_error := 0, img_size := (1280, 720) }

/-- Concrete metadata fixture (only a device id, as a loaded template with a
partial footer would give). -/
def wMeta : Metadata := { dev_id := some ("JMS1006207".data) }

/-- Concrete device-calibration record fixture with a 2-row LUT. -/
def wRec : SEALCalibration :=
  { resolution := (1280, 720), scale_factors := (11, 4), offset_center := (162, 110),
    offset_tilt := (4, -80), camera_left := wCam, camera_right := wCam,
    stereo := { K_left := wCam.K, dist_left := wCam.dist, K_right := wCam.K,
                dist_right := wCam.dist, R := eye3, T := zeros31, E := zeros33,
                F := zeros33, rms_error := 0, img_size := (1280, 720) },
    lut_table := some [[1, 2], [3, 4]], metadata := wMeta }

/-- The same record without a LUT: its direct write has only 8 lines. -/
def wRecNoLut : SEALCalibration := { wRec with lut_table := none }

/-- The same record with an empty metadata dict: no footer is emitted. -/
def wRecNoMeta : SEALCalibration := { wRec with lut_table := none, metadata := {} }

/-- The same record with a non-SEAL stored resolution. -/
def wRecRes : SEALCalibration := { wRec with resolution := (640, 480) }

/-- A concrete 10-line template file. -/
def wTmpl : List Str :=
  ["640 480", "11.600000 4.400000", "162 110", "4 -80",
   "1000.0 1000.0 320.0 240.0 0.0 0.0 0.0 0.0 0.0 0.0 0.0 0.0 7.7 8.8 9.9",
   "2000.0 2000.0 640.0 360.0 0.1 0.1 0.1 0.1 0.1",
   "2800.0 2477.0 542.0 353.0 -0.22 -0.295 -0.000011 -0.000875 4.029662 -0.007206 -0.133619 -0.003511 28.377724 0.011272 1.662601",
   "1 2 3", "4 5 6",
   "***DevID:OLDID***CalibrateDate:2020-01-01_00-00-00***Type:Factory-12***SoftVersion:2.9.9"].map
    (fun s => s.data)

/-- A concrete write timestamp. -/
def wNow : Str := "2026-10-12_00-00-00".data

/-- A constant single-camera optimization engine used at concrete inputs. -/
def wEngine : List (List Pt3) → List (List Pt2) → (ℤ × ℤ) → SingleEngineOut :=
  fun _ _ _ => { rms := 0, K := eye3, dist := [1, 2, 3, 4, 5], rvecs := [], tvecs := [] }

/-- A stereo optimization engine echoing its inputs, used at concrete
inputs. -/
def wStereoEngine : StereoEngineIn → StereoEngineOut :=
  fun i => { rms := 0, K1 := i.K1, dist1 := i.dist1, K2 := i.K2, dist2 := i.dist2,
             R := eye3, T := zeros31, E := zeros33, F := zeros33 }

/-- A well-formed field: nonempty and whitespace-free.  Every token the
codec renders is of this shape. -/
def goodTok (t : Str) : Prop := t ≠ [] ∧ ∀ c ∈ t, c.isWhitespace = false

theorem wordsAux_chunk (t : Str) (ht : ∀ c ∈ t, c.isWhitespace = false) :
    ∀ r acc, wordsAux (t ++ r) acc = wordsAux r (t.reverse ++ acc) := by
  induction t with
  | nil => intro r acc; simp
  | cons c t ih =>
    intro r acc
    have hc : c.isWhitespace = false := ht c (List.mem_cons_self c t)
    have ht' : ∀ c ∈ t, c.isWhitespace = false := fun x hx => ht x (List.mem_cons_of_mem c hx)
    simp only [List.cons_append, wordsAux, hc, Bool.false_eq_true, if_false,
      List.reverse_cons, List.append_assoc, List.singleton_append]
    exact ih ht' r (c :: acc)

theorem wordsAux_space (r : Str) (acc : Str) (hacc : acc ≠ []) :
    wordsAux (' ' :: r) acc = acc.reverse :: wordsAux r [] := by
  simp only [wordsAux]
  have : (' ' : Char).isWhitespace = true := by decide
  rw [this, if_pos rfl, if_neg (by simpa [List.isEmpty_iff] using hacc)]

theorem pyWords_joinSp (ts : List Str) (h : ∀ t ∈ ts, goodTok t) :
    pyWords (joinSp ts) = ts := by
  induction ts with
  | nil => rfl
  | cons t ts ih =>
    have hgt := h t (List.mem_cons_self t ts)
    have hts : ∀ u ∈ ts, goodTok u := fun u hu => h u (List.mem_cons_of_mem t hu)
    cases ts with
    | nil =>
      show wordsAux t [] = [t]
      have h2 := wordsAux_chunk t hgt.2 [] []
      rw [List.append_nil] at h2
      rw [h2]
      simp only [wordsAux, List.append_nil]
      rw [if_neg (by simpa [List.isEmpty_iff] using List.reverse_ne_nil_iff.mpr hgt.1)]
      simp
    | cons u us =>
      show wordsAux (t ++ ' ' :: joinSp (u :: us)) [] = t :: u :: us
      rw [wordsAux_chunk t hgt.2 (' ' :: joinSp (u :: us)) []]
      rw [List.append_nil, wordsAux_space _ _ (List.reverse_ne_nil_iff.mpr hgt.1)]
      rw [List.reverse_reverse]
      exact congrArg (t :: ·) (ih hts)

theorem charVal_digitChar (d : ℕ) (h : d < 10) : charVal (digitChar d) = d := by
  interval_cases d <;> rfl

theorem natDigitsAux_eq (fuel : ℕ) : ∀ n, n ≤ fuel → natDigitsAux fuel n = Nat.digits 10 n := by
  induction fuel with
  | zero =>
    intro n hn
    interval_cases n
    simp [natDigitsAux]
  | succ fuel ih =>
    intro n hn
    cases n with
    | zero => simp [natDigitsAux]
    | succ n =>
      rw [natDigitsAux, Nat.digits_def' (by norm_num : (1 : ℕ) < 10) (Nat.succ_pos n)]
      congr 1
      have hdiv := Nat.div_lt_self (Nat.succ_pos n) (by norm_num : (1 : ℕ) < 10)
      exact ih _ (by omega)

theorem natDigits_eq (n : ℕ) : natDigits n = Nat.digits 10 n :=
  natDigitsAux_eq n n le_rfl

theorem natChars_ne_nil (n : ℕ) : natChars n ≠ [] := by
  unfold natChars
  split
  · simp
  · rename_i h
    simp [natDigits_eq, List.map_eq_nil_iff, Nat.digits_ne_nil_iff_ne_zero.mpr h]

theorem natChars_digits (n : ℕ) : ∀ c ∈ natChars n, c.isDigit = true := by
  intro c hc
  unfold natChars at hc
  split at hc
  · rcases List.mem_singleton.mp hc with rfl; rfl
  · rw [natDigits_eq] at hc
    obtain ⟨d, hd, rfl⟩ := List.mem_map.mp hc
    have : d < 10 := Nat.digits_lt_base (by norm_num) (List.mem_reverse.mp hd)
    interval_cases d <;> rfl

theorem isDigit_facts (c : Char) (h : c.isDigit = true) :
    c ≠ '-' ∧ c ≠ '+' ∧ c ≠ '.' ∧ c ≠ '*' ∧ c.isWhitespace = false := by
  refine ⟨?_, ?_, ?_, ?_, ?_⟩
  · rintro rfl; exact absurd h (by decide)
  · rintro rfl; exact absurd h (by decide)
  · rintro rfl; exact absurd h (by decide)
  · rintro rfl; exact absurd h (by decide)
  · cases hws : c.isWhitespace
    · rfl
    · exfalso
      have hw2 := hws
      simp only [Char.isWhitespace, Bool.or_eq_true, decide_eq_true_eq] at hw2
      rcases hw2 with ((rfl | rfl) | rfl) | rfl <;> exact absurd h (by decide)

theorem foldl_replicate_zeros (k : ℕ) :
    (List.replicate k '0').foldl (fun x c => x * 10 + charVal c) 0 = 0 := by
  induction k with
  | zero => rfl
  | succ k ih => simpa [List.replicate_succ, charVal] using ih

theorem charsVal_append_zeros (k : ℕ) (ds : Str) :
    charsVal (List.replicate k '0' ++ ds) = charsVal ds := by
  unfold charsVal
  rw [List.foldl_append, foldl_replicate_zeros]

theorem foldl_map_digitChar (L : List ℕ) (hL : ∀ d ∈ L, d < 10) (a : ℕ) :
    (L.map digitChar).foldl (fun x c => x * 10 + charVal c) a =
      L.foldl (fun x d => x * 10 + d) a := by
  induction L generalizing a with
  | nil => rfl
  | cons d L ih =>
    have hd : d < 10 := hL d (List.mem_cons_self d L)
    simp only [List.map_cons, List.foldl_cons, charVal_digitChar d hd]
    exact ih (fun x hx => hL x (List.mem_cons_of_mem d hx)) _

theorem foldl_reverse_ofDigits (L : List ℕ) (a : ℕ) :
    L.reverse.foldl (fun x d => x * 10 + d) a = a * 10 ^ L.length + Nat.ofDigits 10 L := by
  induction L generalizing a with
  | nil => simp
  | cons d L ih =>
    rw [List.reverse_cons, List.foldl_append, ih]
    simp only [List.foldl_cons, List.foldl_nil, Nat.ofDigits_cons, List.length_cons, pow_succ]
    ring

theorem charsVal_natChars (n : ℕ) : charsVal (natChars n) = n := by
  unfold natChars
  split
  · rename_i h; subst h; rfl
  · rw [natDigits_eq]
    unfold charsVal
    rw [foldl_map_digitChar _
      (fun d hd => Nat.digits_lt_base (by norm_num) (List.mem_reverse.mp hd))]
    rw [foldl_reverse_ofDigits]
    simp [Nat.ofDigits_digits]

theorem natChars_head_digit (n : ℕ) :
    ∃ c cs, natChars n = c :: cs ∧ c.isDigit = true := by
  cases h : natChars n with
  | nil => exact absurd h (natChars_ne_nil n)
  | cons c cs =>
    exact ⟨c, cs, rfl, natChars_digits n c (h ▸ List.mem_cons_self c cs)⟩

theorem natChars_all_digit (n : ℕ) : (natChars n).all Char.isDigit = true :=
  List.all_eq_true.mpr (natChars_digits n)

theorem parseIntChars_intChars (i : ℤ) : parseIntChars (intChars i) = some i := by
  unfold intChars
  split
  · rename_i hneg
    simp only [parseIntChars]
    rw [if_pos trivial, if_pos ⟨natChars_ne_nil _, natChars_all_digit _⟩, charsVal_natChars]
    have hv : ((i.natAbs : ℤ)) = -i := by omega
    rw [hv]; simp
  · rename_i hpos
    obtain ⟨c, cs, hcons, hcd⟩ := natChars_head_digit i.natAbs
    obtain ⟨hm, hp, _, _, _⟩ := isDigit_facts c hcd
    rw [hcons]
    simp only [parseIntChars]
    rw [if_neg hm, if_neg hp, if_pos (hcons ▸ natChars_all_digit i.natAbs)]
    have hv : charsVal (c :: cs) = i.natAbs := by rw [← hcons, charsVal_natChars]
    rw [hv]
    have hv2 : ((i.natAbs : ℤ)) = i := by omega
    rw [hv2]

theorem natChars_length_le_six (m : ℕ) (h : m < 1000000) : (natChars m).length ≤ 6 := by
  unfold natChars
  split
  · simp
  · rename_i hm
    rw [natDigits_eq, List.length_map, List.length_reverse]
    by_contra hlen
    push_neg at hlen
    have h7 : 7 ≤ (Nat.digits 10 m).length := hlen
    have hle := Nat.base_pow_length_digits_le 10 m (by norm_num) hm
    have h10 : (10 : ℕ) ^ 7 ≤ 10 ^ (Nat.digits 10 m).length := Nat.pow_le_pow_right (by norm_num) h7
    have : (10 : ℕ) ^ 7 = 10000000 := by norm_num
    omega

theorem pad6_length (m : ℕ) (h : m < 1000000) : (pad6 m).length = 6 := by
  unfold pad6
  rw [List.length_append, List.length_replicate]
  have := natChars_length_le_six m h
  omega

theorem pad6_digits (m : ℕ) : ∀ c ∈ pad6 m, c.isDigit = true := by
  intro c hc
  unfold pad6 at hc
  rcases List.mem_append.mp hc with h | h
  · rcases List.eq_of_mem_replicate h with rfl; rfl
  · exact natChars_digits m c h

theorem charsVal_pad6 (m : ℕ) : charsVal (pad6 m) = m := by
  unfold pad6
  rw [charsVal_append_zeros, charsVal_natChars]

theorem splitDot_append (a b : Str) (h : ∀ c ∈ a, c ≠ '.') :
    splitDot (a ++ '.' :: b) = (a, some b) := by
  induction a with
  | nil => simp [splitDot]
  | cons c a ih =>
    have hc := h c (List.mem_cons_self c a)
    have ih2 := ih (fun x hx => h x (List.mem_cons_of_mem c hx))
    simp only [List.cons_append, splitDot, if_neg hc, List.append_eq, ih2]

theorem natSplitVal (a : ℕ) :
    ((a / 1000000 : ℕ) : ℚ) + ((a % 1000000 : ℕ) : ℚ) / 1000000 = (a : ℚ) / 1000000 := by
  have h : (1000000 : ℕ) * (a / 1000000) + a % 1000000 = a := Nat.div_add_mod a 1000000
  have h2 : ((1000000 * (a / 1000000) + a % 1000000 : ℕ) : ℚ) = (a : ℚ) := by rw [h]
  push_cast at h2
  field_simp
  linarith

theorem rnd6_eq_floor (q : ℚ) : rnd6 q = ⌊q * 1000000 + 1 / 2⌋ := by
  have hd0 : ((q.den : ℚ)) ≠ 0 := Nat.cast_ne_zero.mpr q.den_nz
  have hnum : (q.num : ℚ) = q * (q.den : ℚ) := (div_eq_iff hd0).mp (Rat.num_div_den q)
  have hq : q * 1000000 + 1 / 2 =
      ((2 * q.num * 1000000 + (q.den : ℤ) : ℤ) : ℚ) / ((2 * q.den : ℕ) : ℚ) := by
    push_cast
    field_simp
    rw [hnum]
    ring
  unfold rnd6
  rw [hq, Rat.floor_intCast_div_natCast]
  congr 1

theorem signSplit_neg (r : Str) : signSplit ('-' :: r) = (-1, r) := by
  simp [signSplit]

theorem signSplit_plain (c : Char) (r : Str) (h1 : c ≠ '-') (h2 : c ≠ '+') :
    signSplit (c :: r) = (1, c :: r) := by
  simp [signSplit, h1, h2]

theorem fmt6Chars_eq (q : ℚ) :
    fmt6Chars q = (if rnd6 q < 0 then ['-'] else []) ++
      natChars ((rnd6 q).natAbs / 1000000) ++ '.' :: pad6 ((rnd6 q).natAbs % 1000000) := rfl

theorem parseFloatChars_fmt6 (q : ℚ) : parseFloatChars (fmt6Chars q) = some (q6 q) := by
  have hlo : (rnd6 q).natAbs % 1000000 < 1000000 := Nat.mod_lt _ (by norm_num)
  have hdot : ∀ c ∈ natChars ((rnd6 q).natAbs / 1000000), c ≠ '.' :=
    fun c hc => (isDigit_facts c (natChars_digits _ c hc)).2.2.1
  have hsplit := splitDot_append (natChars ((rnd6 q).natAbs / 1000000))
    (pad6 ((rnd6 q).natAbs % 1000000)) hdot
  have hcond : (natChars ((rnd6 q).natAbs / 1000000) ≠ [] ∨
      pad6 ((rnd6 q).natAbs % 1000000) ≠ []) ∧
      (natChars ((rnd6 q).natAbs / 1000000)).all Char.isDigit = true ∧
      (pad6 ((rnd6 q).natAbs % 1000000)).all Char.isDigit = true :=
    ⟨Or.inl (natChars_ne_nil _), natChars_all_digit _,
      List.all_eq_true.mpr (pad6_digits _)⟩
  have hvals : (charsVal (natChars ((rnd6 q).natAbs / 1000000)) : ℚ) +
      (charsVal (pad6 ((rnd6 q).natAbs % 1000000)) : ℚ) /
        10 ^ (pad6 ((rnd6 q).natAbs % 1000000)).length =
      ((rnd6 q).natAbs : ℚ) / 1000000 := by
    rw [charsVal_natChars, charsVal_pad6, pad6_length _ hlo]
    have h6 : ((10 : ℚ) ^ (6 : ℕ)) = 1000000 := by norm_num
    rw [h6]
    exact natSplitVal (rnd6 q).natAbs
  by_cases hneg : rnd6 q < 0
  · have hbody : fmt6Chars q =
        '-' :: (natChars ((rnd6 q).natAbs / 1000000) ++
          '.' :: pad6 ((rnd6 q).natAbs % 1000000)) := by
      rw [fmt6Chars_eq, if_pos hneg]
      rfl
    rw [hbody]
    unfold parseFloatChars
    rw [signSplit_neg]
    simp only [hsplit]
    rw [if_pos hcond, hvals]
    have ha : (((rnd6 q).natAbs : ℚ)) = -((rnd6 q : ℤ) : ℚ) := by
      rw [Int.cast_natAbs, abs_of_neg hneg]
      push_cast
      ring
    rw [ha]
    unfold q6
    congr 1
    ring
  · obtain ⟨c, cs, hcons, hcd⟩ := natChars_head_digit ((rnd6 q).natAbs / 1000000)
    obtain ⟨hm, hp, _, _, _⟩ := isDigit_facts c hcd
    have hbody : fmt6Chars q =
        c :: (cs ++ '.' :: pad6 ((rnd6 q).natAbs % 1000000)) := by
      rw [fmt6Chars_eq, if_neg hneg, hcons]
      rfl
    have hsplit2 : splitDot (c :: (cs ++ '.' :: pad6 ((rnd6 q).natAbs % 1000000))) =
        (natChars ((rnd6 q).natAbs / 1000000), some (pad6 ((rnd6 q).natAbs % 1000000))) := by
      rw [← List.cons_append, ← hcons]
      exact hsplit
    rw [hbody]
    unfold parseFloatChars
    rw [signSplit_plain c _ hm hp]
    simp only [hsplit2]
    rw [if_pos hcond, hvals]
    have ha : (((rnd6 q).natAbs : ℚ)) = ((rnd6 q : ℤ) : ℚ) := by
      rw [Int.cast_natAbs, abs_of_nonneg (not_lt.mp hneg)]
    rw [ha]
    unfold q6
    congr 1
    ring

theorem q6_close (q : ℚ) : |q6 q - q| ≤ 1 / 2000000 := by
  have hf := rnd6_eq_floor q
  have h1 : ((rnd6 q : ℤ) : ℚ) ≤ q * 1000000 + 1 / 2 := by
    rw [hf]; exact Int.floor_le _
  have h2 : q * 1000000 + 1 / 2 < (rnd6 q : ℤ) + 1 := by
    rw [hf]; exact Int.lt_floor_add_one _
  rw [abs_le]
  unfold q6
  constructor <;> [nlinarith; nlinarith]

theorem fmt6_good (q : ℚ) : goodTok (fmt6Chars q) := by
  constructor
  · rw [fmt6Chars_eq]
    simp [List.append_eq_nil]
  · intro c hc
    rw [fmt6Chars_eq] at hc
    rcases List.mem_append.mp hc with h | h
    · rcases List.mem_append.mp h with h1 | h1
      · by_cases hn : rnd6 q < 0
        · rw [if_pos hn] at h1
          rcases List.mem_singleton.mp h1 with rfl
          rfl
        · rw [if_neg hn] at h1
          cases h1
      · exact (isDigit_facts c (natChars_digits _ c h1)).2.2.2.2
    · rcases List.mem_cons.mp h with rfl | h1
      · rfl
      · exact (isDigit_facts c (pad6_digits _ c h1)).2.2.2.2

theorem intChars_good (i : ℤ) : goodTok (intChars i) := by
  constructor
  · unfold intChars
    split
    · simp
    · exact natChars_ne_nil _
  · intro c hc
    unfold intChars at hc
    split at hc
    · rcases List.mem_cons.mp hc with rfl | h
      · rfl
      · exact (isDigit_facts c (natChars_digits _ c h)).2.2.2.2
    · exact (isDigit_facts c (natChars_digits _ c hc)).2.2.2.2

theorem zerosTok_good : goodTok ("0.000000".data) := ⟨by decide, by decide⟩

theorem fmt6_zero : fmt6Chars 0 = "0.000000".data := by decide

theorem parseFloat_zeros : parseFloatChars ("0.000000".data) = some 0 := by
  rw [← fmt6_zero, parseFloatChars_fmt6]
  have h0 : rnd6 0 = 0 := by decide
  unfold q6
  rw [h0]
  norm_num

theorem parseFloat_zeros2 : parseFloatChars ['0', '.', '0', '0', '0', '0', '0', '0'] = some 0 :=
  parseFloat_zeros

theorem forall2_q6 (xs : List ℚ) :
    List.Forall₂ (fun a b => |a - b| ≤ 1 / 2000000) (xs.map q6) xs := by
  induction xs with
  | nil => exact List.Forall₂.nil
  | cons x xs ih => exact List.Forall₂.cons (q6_close x) ih

theorem getD_append_left7 (l1 l2 l3 : List Str) (i : ℕ) (h : i < l1.length) :
    ((l1 ++ l2) ++ l3).getD i [] = l1.getD i [] := by
  rw [List.getD_append _ _ _ _ (by rw [List.length_append]; omega),
    List.getD_append _ _ _ _ h]

theorem to_seal_format_lines (c : SEALCalibration) :
    (to_seal_format c).getD 0 [] = joinSp [intChars c.resolution.1, intChars c.resolution.2] ∧
    (to_seal_format c).getD 1 [] =
      joinSp [fmt6Chars c.scale_factors.1, fmt6Chars c.scale_factors.2] ∧
    (to_seal_format c).getD 2 [] =
      joinSp [intChars c.offset_center.1, intChars c.offset_center.2] ∧
    (to_seal_format c).getD 3 [] = joinSp [intChars c.offset_tilt.1, intChars c.offset_tilt.2] ∧
    (to_seal_format c).getD 4 [] = directCameraLine c.camera_left ∧
    (to_seal_format c).getD 5 [] = directCameraLine c.camera_right := by
  unfold to_seal_format
  refine ⟨?_, ?_, ?_, ?_, ?_, ?_⟩ <;>
    rw [getD_append_left7 _ _ _ _ (by norm_num)] <;>
    simp [List.getD_cons_zero, List.getD_cons_succ]

theorem parseIntsOf_pair (a b : ℤ) :
    parseIntsOf (joinSp [intChars a, intChars b]) = some [a, b] := by
  unfold parseIntsOf
  rw [pyWords_joinSp _ (by
    intro t ht
    simp only [List.mem_cons, List.not_mem_nil, or_false] at ht
    rcases ht with rfl | rfl <;> exact intChars_good _)]
  simp [mapOpt, parseIntChars_intChars]

theorem parseFloatsOf_pair (a b : ℚ) :
    parseFloatsOf (joinSp [fmt6Chars a, fmt6Chars b]) = some [q6 a, q6 b] := by
  unfold parseFloatsOf
  rw [pyWords_joinSp _ (by
    intro t ht
    simp only [List.mem_cons, List.not_mem_nil, or_false] at ht
    rcases ht with rfl | rfl <;> exact fmt6_good _)]
  simp [mapOpt, parseFloatChars_fmt6]

theorem parseFloatsOf_directCameraLine (p : CameraParams) :
    parseFloatsOf (directCameraLine p) =
      some [q6 p.fx, q6 p.fy, q6 p.cx, q6 p.cy, q6 p.k1, q6 p.k2, q6 p.p1, q6 p.p2,
            q6 p.k3, q6 p.k4, q6 p.k5, q6 p.k6, 0, 0, 0] := by
  unfold parseFloatsOf directCameraLine
  rw [pyWords_joinSp _ (by
    intro t ht
    simp only [List.mem_cons, List.not_mem_nil, or_false] at ht
    rcases ht with rfl | rfl | rfl | rfl | rfl | rfl | rfl | rfl | rfl | rfl | rfl | rfl |
      rfl | rfl | rfl <;> first
      | exact fmt6_good _
      | exact zerosTok_good)]
  simp [mapOpt, parseFloatChars_fmt6, parseFloat_zeros, parseFloat_zeros2]

theorem parseCameraLine_direct (idx : ℕ) (p : CameraParams) (r : ℤ × ℤ) :
    parseCameraLine idx (directCameraLine p) r = .ok (loadedCam p r) := by
  unfold parseCameraLine
  rw [parseFloatsOf_directCameraLine]
  simp [loadedCam, List.getD_cons_zero, List.getD_cons_succ]

theorem camFields_loadedCam (p : CameraParams) (r : ℤ × ℤ) :
    camFields (loadedCam p r) = (camFields p).map q6 := by
  simp [camFields, loadedCam, CameraParams.fx, CameraParams.fy, CameraParams.cx,
    CameraParams.cy, CameraParams.k1, CameraParams.k2, CameraParams.p1, CameraParams.p2,
    CameraParams.k3, CameraParams.k4, CameraParams.k5, CameraParams.k6,
    List.getD_cons_zero, List.getD_cons_succ]

theorem load_of_write (c : SEALCalibration) (h : ¬ (to_seal_format c).length < 10) :
    ∃ lt md, load (to_seal_format c) = .ok
      { resolution := c.resolution
        scale_factors := (q6 c.scale_factors.1, q6 c.scale_factors.2)
        offset_center := c.offset_center
        offset_tilt := c.offset_tilt
        camera_left := loadedCam c.camera_left c.resolution
        camera_right := loadedCam c.camera_right c.resolution
        stereo := { K_left := (loadedCam c.camera_left c.resolution).K
                    dist_left := (loadedCam c.camera_left c.resolution).dist
                    K_right := (loadedCam c.camera_right c.resolution).K
                    dist_right := (loadedCam c.camera_right c.resolution).dist
                    R := eye3, T := zeros31, E := zeros33, F := zeros33
                    rms_error := 0, img_size := c.resolution }
        lut_table := lt
        metadata := md } := by
  obtain ⟨hg0, hg1, hg2, hg3, hg4, hg5⟩ := to_seal_format_lines c
  refine ⟨if 7 < findFooterIdx (to_seal_format c) then
      parseLutTable (((to_seal_format c).drop 7).take (findFooterIdx (to_seal_format c) - 7))
    else none,
    parseMetadata ((to_seal_format c).getD (findFooterIdx (to_seal_format c)) []), ?_⟩
  unfold load
  rw [if_neg h]
  rw [hg0, hg1, hg2, hg3, hg4, hg5, parseIntsOf_pair, parseFloatsOf_pair,
    parseIntsOf_pair, parseIntsOf_pair]
  simp only [List.getD_cons_zero, List.getD_cons_succ, Prod.mk.eta]
  rw [parseCameraLine_direct, parseCameraLine_direct]

theorem getD_set_ne (l : List Str) (i j : ℕ) (a : Str) (h : i ≠ j) :
    (l.set i a).getD j [] = l.getD j [] := by
  rw [List.getD_eq_getElem?_getD, List.getElem?_set_ne h, ← List.getD_eq_getElem?_getD]

theorem getD_set_self (l : List Str) (i : ℕ) (a : Str) (h : i < l.length) :
    (l.set i a).getD i [] = a := by
  rw [List.getD_eq_getElem?_getD, List.getElem?_set_eq_of_lt a h]
  rfl

theorem findFooterIdx_ge6 (lines : List Str) (h : 10 ≤ lines.length) :
    6 ≤ findFooterIdx lines ∧ findFooterIdx lines < lines.length := by
  unfold findFooterIdx
  cases hl : ((List.range lines.length).filter
      (fun i => decide (6 ≤ i) && strStartsWith (lines.getD i []) ("***DevID:".data))).getLast? with
  | none =>
    simp only [hl, Option.getD_none]
    omega
  | some i =>
    simp only [hl, Option.getD_some]
    have hmem : i ∈ (List.range lines.length).filter
        (fun i => decide (6 ≤ i) && strStartsWith (lines.getD i []) ("***DevID:".data)) := by
      obtain ⟨hne, heq⟩ := List.mem_getLast?_eq_getLast (Option.mem_def.mpr hl)
      rw [heq]
      exact List.getLast_mem hne
    rw [List.mem_filter] at hmem
    obtain ⟨hr, hp⟩ := hmem
    rw [Bool.and_eq_true, decide_eq_true_eq] at hp
    exact ⟨hp.1, List.mem_range.mp hr⟩

theorem formatCameraLine_extras (p : CameraParams) (t : Str)
    (h15 : 15 ≤ (pyWords t).length) :
    formatCameraLine p t =
      joinSp ([fmt6Chars p.fx, fmt6Chars p.fy, fmt6Chars p.cx, fmt6Chars p.cy,
               fmt6Chars p.k1, fmt6Chars p.k2, fmt6Chars p.p1, fmt6Chars p.p2,
               fmt6Chars p.k3, fmt6Chars p.k4, fmt6Chars p.k5, fmt6Chars p.k6] ++
        ((pyWords t).drop 12).take 3) := by
  simp only [formatCameraLine]
  rw [if_pos h15]
  have hlen : (((pyWords t).drop 9).take 6).length = 6 := by
    rw [List.length_take, List.length_drop]
    omega
  rw [if_pos (by rw [hlen]; norm_num)]
  congr 2
  rw [List.drop_take, List.drop_drop]
  norm_num

theorem writeWithTemplate_getD_lo (c : SEALCalibration) (now : Str) (tmpl : List Str)
    (h : ¬ tmpl.length < 10) (j : ℕ) (hj0 : j ≠ 0) (hj4 : j ≠ 4) (hj6 : j < 6) :
    (writeWithTemplate c now tmpl).map (fun o => o.getD j []) = .ok (tmpl.getD j []) := by
  unfold writeWithTemplate
  rw [if_neg h]
  simp only [Except.map]
  have h10 : 10 ≤ tmpl.length := by omega
  have hlen : ((tmpl.set 0 (joinSp [intChars c.resolution.1, intChars c.resolution.2])).set 4
      (formatCameraLine c.camera_left
        ((tmpl.set 0 (joinSp [intChars c.resolution.1, intChars c.resolution.2])).getD 4 []))).length =
      tmpl.length := by simp
  have hfi := findFooterIdx_ge6 _ (by rw [hlen]; exact h10)
  rw [getD_set_ne _ _ _ _ (by omega), getD_set_ne _ _ _ _ (by omega),
    getD_set_ne _ _ _ _ (by omega)]

/-- C1 (amended): for every record whose direct write has at least 10 lines,
`load` of the written lines succeeds and reproduces the resolution and the
integer factory offsets exactly, and the factory scale factors and all 12
calibration fields of both cameras to 6-decimal precision: each loaded value
is the 6-decimal quantization `q6` of the original, within `1/2000000` of
it.  (The unamended claim fails: a record without a LUT writes fewer than 10
lines and `load` rejects it — see the counterexample.) -/
theorem claim_C1_roundtrip_amended (c : SEALCalibration)
    (h : ¬ (to_seal_format c).length < 10) :
    (load (to_seal_format c)).map (fun r => r.resolution) = .ok c.resolution ∧
    (load (to_seal_format c)).map (fun r => r.offset_center) = .ok c.offset_center ∧
    (load (to_seal_format c)).map (fun r => r.offset_tilt) = .ok c.offset_tilt ∧
    (load (to_seal_format c)).map (fun r => r.scale_factors) =
      .ok (q6 c.scale_factors.1, q6 c.scale_factors.2) ∧
    |q6 c.scale_factors.1 - c.scale_factors.1| ≤ 1 / 2000000 ∧
    |q6 c.scale_factors.2 - c.scale_factors.2| ≤ 1 / 2000000 ∧
    (load (to_seal_format c)).map (fun r => camFields r.camera_left) =
      .ok ((camFields c.camera_left).map q6) ∧
    (load (to_seal_format c)).map (fun r => camFields r.camera_right) =
      .ok ((camFields c.camera_right).map q6) ∧
    List.Forall₂ (fun a b => |a - b| ≤ 1 / 2000000)
      ((camFields c.camera_left).map q6) (camFields c.camera_left) ∧
    List.Forall₂ (fun a b => |a - b| ≤ 1 / 2000000)
      ((camFields c.camera_right).map q6) (camFields c.camera_right) := by
  obtain ⟨lt, md, hld⟩ := load_of_write c h
  rw [hld]
  simp only [Except.map]
  refine ⟨?_, ?_, ?_, ?_, q6_close _, q6_close _, ?_, ?_, forall2_q6 _, forall2_q6 _⟩ <;>
    simp [camFields_loadedCam]

/-- C1 witness: the amended round-trip law applied to the concrete record
`wRec`, whose direct write has exactly 10 lines. -/
theorem claim_C1_roundtrip_amended_witness :
    (¬ (to_seal_format wRec).length < 10) ∧
    ((load (to_seal_format wRec)).map (fun r => r.resolution) = .ok wRec.resolution ∧
     (load (to_seal_format wRec)).map (fun r => r.offset_center) = .ok wRec.offset_center ∧
     (load (to_seal_format wRec)).map (fun r => r.offset_tilt) = .ok wRec.offset_tilt ∧
     (load (to_seal_format wRec)).map (fun r => r.scale_factors) =
       .ok (q6 wRec.scale_factors.1, q6 wRec.scale_factors.2) ∧
     |q6 wRec.scale_factors.1 - wRec.scale_factors.1| ≤ 1 / 2000000 ∧
     |q6 wRec.scale_factors.2 - wRec.scale_factors.2| ≤ 1 / 2000000 ∧
     (load (to_seal_format wRec)).map (fun r => camFields r.camera_left) =
       .ok ((camFields wRec.camera_left).map q6) ∧
     (load (to_seal_format wRec)).map (fun r => camFields r.camera_right) =
       .ok ((camFields wRec.camera_right).map q6) ∧
     List.Forall₂ (fun a b => |a - b| ≤ 1 / 2000000)
       ((camFields wRec.camera_left).map q6) (camFields wRec.camera_left) ∧
     List.Forall₂ (fun a b => |a - b| ≤ 1 / 2000000)
       ((camFields wRec.camera_right).map q6) (camFields wRec.camera_right)) :=
  ⟨by decide, claim_C1_roundtrip_amended wRec (by decide)⟩

/-- C1 counterexample: `wRecNoLut` is a valid record (non-empty metadata, no
LUT — the LUT is optional in the data model), yet its direct write has only
8 lines, so `load(write(R))` raises the too-few-lines `ValueError` instead
of succeeding as the claim states. -/
theorem claim_C1_counterexample :
    mdNonEmpty wRecNoLut.metadata = true ∧
    load (to_seal_format wRecNoLut) = .error (.tooFewLines 8) :=
  ⟨by decide, by decide⟩

/-- C2: for every template with at least 10 lines, the merged output's lines
2, 3, 4 (factory scale factors, center offset, tilt offset) and 6 (right
camera) are byte-identical to the template's corresponding lines. -/
theorem claim_C2_factory_lines_preserved (c : SEALCalibration) (now : Str)
    (tmpl : List Str) (h : ¬ tmpl.length < 10) :
    (writeWithTemplate c now tmpl).map (fun o => o.getD 1 []) = .ok (tmpl.getD 1 []) ∧
    (writeWithTemplate c now tmpl).map (fun o => o.getD 2 []) = .ok (tmpl.getD 2 []) ∧
    (writeWithTemplate c now tmpl).map (fun o => o.getD 3 []) = .ok (tmpl.getD 3 []) ∧
    (writeWithTemplate c now tmpl).map (fun o => o.getD 5 []) = .ok (tmpl.getD 5 []) :=
  ⟨writeWithTemplate_getD_lo c now tmpl h 1 (by omega) (by omega) (by omega),
   writeWithTemplate_getD_lo c now tmpl h 2 (by omega) (by omega) (by omega),
   writeWithTemplate_getD_lo c now tmpl h 3 (by omega) (by omega) (by omega),
   writeWithTemplate_getD_lo c now tmpl h 5 (by omega) (by omega) (by omega)⟩

/-- C2 witness: the preservation law applied to the concrete 10-line
template `wTmpl`. -/
theorem claim_C2_factory_lines_preserved_witness :
    (¬ wTmpl.length < 10) ∧
    ((writeWithTemplate wRec wNow wTmpl).map (fun o => o.getD 1 []) = .ok (wTmpl.getD 1 []) ∧
     (writeWithTemplate wRec wNow wTmpl).map (fun o => o.getD 2 []) = .ok (wTmpl.getD 2 []) ∧
     (writeWithTemplate wRec wNow wTmpl).map (fun o => o.getD 3 []) = .ok (wTmpl.getD 3 []) ∧
     (writeWithTemplate wRec wNow wTmpl).map (fun o => o.getD 5 []) = .ok (wTmpl.getD 5 [])) :=
  ⟨by decide, claim_C2_factory_lines_preserved wRec wNow wTmpl (by decide)⟩

/-- C8: with a template of at least 10 lines whose line 5 has at least 15
whitespace-separated fields, output line 5 is the record's left camera's 12
calibration values at 6 decimals followed by fields 13-15 of the template's
line 5 copied verbatim. -/
theorem claim_C8_left_camera_line (c : SEALCalibration) (now : Str)
    (tmpl : List Str) (h : ¬ tmpl.length < 10)
    (h15 : 15 ≤ (pyWords (tmpl.getD 4 [])).length) :
    (writeWithTemplate c now tmpl).map (fun o => o.getD 4 []) =
      .ok (joinSp
        ([fmt6Chars c.camera_left.fx, fmt6Chars c.camera_left.fy,
          fmt6Chars c.camera_left.cx, fmt6Chars c.camera_left.cy,
          fmt6Chars c.camera_left.k1, fmt6Chars c.camera_left.k2,
          fmt6Chars c.camera_left.p1, fmt6Chars c.camera_left.p2,
          fmt6Chars c.camera_left.k3, fmt6Chars c.camera_left.k4,
          fmt6Chars c.camera_left.k5, fmt6Chars c.camera_left.k6] ++
          ((pyWords (tmpl.getD 4 [])).drop 12).take 3)) := by
  unfold writeWithTemplate
  rw [if_neg h]
  simp only [Except.map]
  have h10 : 10 ≤ tmpl.length := by omega
  have hlen : ((tmpl.set 0 (joinSp [intChars c.resolution.1, intChars c.resolution.2])).set 4
      (formatCameraLine c.camera_left
        ((tmpl.set 0 (joinSp [intChars c.resolution.1, intChars c.resolution.2])).getD 4 []))).length =
      tmpl.length := by simp
  have hfi := findFooterIdx_ge6 _ (by rw [hlen]; exact h10)
  rw [getD_set_ne _ _ _ _ (by omega)]
  rw [getD_set_self _ _ _ (by simp; omega)]
  rw [getD_set_ne tmpl 0 4 _ (by omega)]
  rw [formatCameraLine_extras _ _ h15]

/-- C8 witness: the line-5 law applied to the concrete template `wTmpl`,
whose line 5 has 15 fields ending in `7.7 8.8 9.9`. -/
theorem claim_C8_left_camera_line_witness :
    (¬ wTmpl.length < 10) ∧ 15 ≤ (pyWords (wTmpl.getD 4 [])).length ∧
    (writeWithTemplate wRec wNow wTmpl).map (fun o => o.getD 4 []) =
      .ok (joinSp
        ([fmt6Chars wRec.camera_left.fx, fmt6Chars wRec.camera_left.fy,
          fmt6Chars wRec.camera_left.cx, fmt6Chars wRec.camera_left.cy,
          fmt6Chars wRec.camera_left.k1, fmt6Chars wRec.camera_left.k2,
          fmt6Chars wRec.camera_left.p1, fmt6Chars wRec.camera_left.p2,
          fmt6Chars wRec.camera_left.k3, fmt6Chars wRec.camera_left.k4,
          fmt6Chars wRec.camera_left.k5, fmt6Chars wRec.camera_left.k6] ++
          ((pyWords (wTmpl.getD 4 [])).drop 12).take 3)) :=
  ⟨by decide, by decide, claim_C8_left_camera_line wRec wNow wTmpl (by decide) (by decide)⟩

/-- C3 (code bug in examples/stereo_to_seal.py): the DeviceCalibration it
assembles for writing keeps the single-camera CameraParams unchanged — the
5-coefficient single-camera distortion is written out, not the stereo step's
8-coefficient vector — violating the reconciliation rule; the sibling
pipeline (examples/stereo_calibration_complete.py, modelled by
`reconcileWithStereo` and marked CRITICAL in its comments) implements the
rule: original K kept, stereo distortion adopted. -/
theorem claim_C3_reconciliation_bug :
    (stereoToSealAssemble wCam wCam wStereo8 wRec ("JMS1006207".data) wNow).camera_left.dist =
      wCam.dist ∧
    wCam.dist.length = 5 ∧
    wStereo8.dist_left.length = 8 ∧
    wCam.dist ≠ wStereo8.dist_left ∧
    (stereoToSealAssemble wCam wCam wStereo8 wRec ("JMS1006207".data) wNow).camera_left.k4 = 0 ∧
    (reconcileWithStereo wCam wStereo8.dist_left (1280, 720)).dist = wStereo8.dist_left ∧
    (reconcileWithStereo wCam wStereo8.dist_left (1280, 720)).K = wCam.K :=
  ⟨rfl, by decide, by decide, by decide, by decide, rfl, rfl⟩

/-- C4: StereoCalibrator.calibrate builds the engine call with the right
camera's image points, K and distortion in the engine's first/primary slots
and the left camera's in the second slots, and unpacks the engine's
first-camera outputs into K_right/dist_right and its second-camera outputs
into K_left/dist_left. -/
theorem claim_C4_stereo_ordering (engine : StereoEngineIn → StereoEngineOut)
    (objpoints : List (List Pt3)) (ipl ipr : List (List Pt2))
    (cl cr : CameraParams) (sz : ℤ × ℤ) :
    (stereoEngineArgs objpoints ipl ipr cl cr sz).imgpoints1 = ipr ∧
    (stereoEngineArgs objpoints ipl ipr cl cr sz).K1 = cr.K ∧
    (stereoEngineArgs objpoints ipl ipr cl cr sz).dist1 = cr.dist ∧
    (stereoEngineArgs objpoints ipl ipr cl cr sz).imgpoints2 = ipl ∧
    (stereoEngineArgs objpoints ipl ipr cl cr sz).K2 = cl.K ∧
    (stereoEngineArgs objpoints ipl ipr cl cr sz).dist2 = cl.dist ∧
    (StereoCalibrator.calibrate engine objpoints ipl ipr cl cr sz).K_right =
      (engine (stereoEngineArgs objpoints ipl ipr cl cr sz)).K1 ∧
    (StereoCalibrator.calibrate engine objpoints ipl ipr cl cr sz).dist_right =
      (engine (stereoEngineArgs objpoints ipl ipr cl cr sz)).dist1 ∧
    (StereoCalibrator.calibrate engine objpoints ipl ipr cl cr sz).K_left =
      (engine (stereoEngineArgs objpoints ipl ipr cl cr sz)).K2 ∧
    (StereoCalibrator.calibrate engine objpoints ipl ipr cl cr sz).dist_left =
      (engine (stereoEngineArgs objpoints ipl ipr cl cr sz)).dist2 :=
  ⟨rfl, rfl, rfl, rfl, rfl, rfl, rfl, rfl, rfl, rfl⟩

/-- C4 witness: the ordering contract at a concrete engine and inputs. -/
theorem claim_C4_stereo_ordering_witness :
    (stereoEngineArgs [] [] [] wCam wCam (1280, 720)).imgpoints1 = [] ∧
    (stereoEngineArgs [] [] [] wCam wCam (1280, 720)).K1 = wCam.K ∧
    (stereoEngineArgs [] [] [] wCam wCam (1280, 720)).dist1 = wCam.dist ∧
    (stereoEngineArgs [] [] [] wCam wCam (1280, 720)).imgpoints2 = [] ∧
    (stereoEngineArgs [] [] [] wCam wCam (1280, 720)).K2 = wCam.K ∧
    (stereoEngineArgs [] [] [] wCam wCam (1280, 720)).dist2 = wCam.dist ∧
    (StereoCalibrator.calibrate wStereoEngine [] [] [] wCam wCam (1280, 720)).K_right =
      (wStereoEngine (stereoEngineArgs [] [] [] wCam wCam (1280, 720))).K1 ∧
    (StereoCalibrator.calibrate wStereoEngine [] [] [] wCam wCam (1280, 720)).dist_right =
      (wStereoEngine (stereoEngineArgs [] [] [] wCam wCam (1280, 720))).dist1 ∧
    (StereoCalibrator.calibrate wStereoEngine [] [] [] wCam wCam (1280, 720)).K_left =
      (wStereoEngine (stereoEngineArgs [] [] [] wCam wCam (1280, 720))).K2 ∧
    (StereoCalibrator.calibrate wStereoEngine [] [] [] wCam wCam (1280, 720)).dist_left =
      (wStereoEngine (stereoEngineArgs [] [] [] wCam wCam (1280, 720))).dist2 :=
  claim_C4_stereo_ordering wStereoEngine [] [] [] wCam wCam (1280, 720)

/-- C5 counterexample: a record with stored resolution 640×480 is written
with line 1 `"640 480"` by `to_seal_format` — the writer does not force
`"1280 720"`. -/
theorem claim_C5_counterexample :
    wRecRes.resolution = (640, 480) ∧
    (to_seal_format wRecRes).getD 0 [] = "640 480".data ∧
    "640 480".data ≠ "1280 720".data :=
  ⟨rfl, by decide, by decide⟩

/-- C5 (amended): both write paths emit the record's *stored* resolution as
line 1 (`"W H"`); the constant 1280×720 is supplied by the callers that
construct the record, not enforced by the writer. -/
theorem claim_C5_resolution_amended (c : SEALCalibration) (now : Str)
    (tmpl : List Str) (h : ¬ tmpl.length < 10) :
    (to_seal_format c).getD 0 [] = joinSp [intChars c.resolution.1, intChars c.resolution.2] ∧
    (writeWithTemplate c now tmpl).map (fun o => o.getD 0 []) =
      .ok (joinSp [intChars c.resolution.1, intChars c.resolution.2]) := by
  refine ⟨(to_seal_format_lines c).1, ?_⟩
  unfold writeWithTemplate
  rw [if_neg h]
  simp only [Except.map]
  have h10 : 10 ≤ tmpl.length := by omega
  have hlen : ((tmpl.set 0 (joinSp [intChars c.resolution.1, intChars c.resolution.2])).set 4
      (formatCameraLine c.camera_left
        ((tmpl.set 0 (joinSp [intChars c.resolution.1, intChars c.resolution.2])).getD 4 []))).length =
      tmpl.length := by simp
  have hfi := findFooterIdx_ge6 _ (by rw [hlen]; exact h10)
  rw [getD_set_ne _ _ _ _ (by omega), getD_set_ne _ _ _ _ (by omega),
    getD_set_self _ _ _ (by omega)]

/-- C5 witness: the amended resolution law at the concrete record and
template. -/
theorem claim_C5_resolution_amended_witness :
    (¬ wTmpl.length < 10) ∧
    ((to_seal_format wRecRes).getD 0 [] =
       joinSp [intChars wRecRes.resolution.1, intChars wRecRes.resolution.2] ∧
     (writeWithTemplate wRecRes wNow wTmpl).map (fun o => o.getD 0 []) =
       .ok (joinSp [intChars wRecRes.resolution.1, intChars wRecRes.resolution.2])) :=
  ⟨by decide, claim_C5_resolution_amended wRecRes wNow wTmpl (by decide)⟩

/-- C6 (amended): `to_seal_format` appends a footer only when the metadata
dict is non-empty; that footer's Type is the constant recalibration label
and its CalibrateDate is the record's *stored* metadata date (defaulting to
`2024-01-01_00-00-00`), not a clock reading — the direct write path takes no
time input at all. -/
theorem claim_C6_footer_amended (c : SEALCalibration)
    (h : mdNonEmpty c.metadata = true) :
    (to_seal_format c).getLast? = some
      ("***DevID:".data ++ c.metadata.dev_id.getD ("UNKNOWN".data) ++
       "***CalibrateDate:".data ++ c.metadata.date.getD ("2024-01-01_00-00-00".data) ++
       "***Type:Sychev-calibration***SoftVersion:".data ++
       c.metadata.version.getD ("3.0.0.1116".data)) := by
  unfold to_seal_format
  rw [if_pos h]
  exact List.getLast?_concat _

/-- C6 witness: the amended footer law at the concrete record `wRecNoLut`
(non-empty metadata). -/
theorem claim_C6_footer_amended_witness :
    mdNonEmpty wRecNoLut.metadata = true ∧
    (to_seal_format wRecNoLut).getLast? = some
      ("***DevID:".data ++ wRecNoLut.metadata.dev_id.getD ("UNKNOWN".data) ++
       "***CalibrateDate:".data ++ wRecNoLut.metadata.date.getD ("2024-01-01_00-00-00".data) ++
       "***Type:Sychev-calibration***SoftVersion:".data ++
       wRecNoLut.metadata.version.getD ("3.0.0.1116".data)) :=
  ⟨by decide, claim_C6_footer_amended wRecNoLut (by decide)⟩

/-- C6 counterexample: with an empty metadata dict no footer is appended at
all (7 lines, none carrying the DevID marker), so "always appends a
metadata footer" fails; and when a footer is appended (`wRecNoLut`) its
CalibrateDate is the stored default `2024-01-01_00-00-00`, not the time of
writing. -/
theorem claim_C6_counterexample :
    wRecNoMeta.metadata = {} ∧
    (to_seal_format wRecNoMeta).length = 7 ∧
    ((to_seal_format wRecNoMeta).filter
      (fun l => strStartsWith l ("***DevID:".data))).length = 0 ∧
    (to_seal_format wRecNoLut).getLast? = some (directFooter wMeta) ∧
    reCapture ("CalibrateDate:".data) stopStar (directFooter wMeta) =
      some ("2024-01-01_00-00-00".data) :=
  ⟨rfl, by decide, by decide, by decide, by decide⟩

/-- C7 counterexample: `CameraCalibrator.calibrate` performs no
correspondence-count check — called with exactly 3 sets it returns a normal
result (no error is raised; no `InsufficientDataError` class exists anywhere
in the codebase). -/
theorem claim_C7_counterexample :
    CameraCalibrator.calibrate wEngine
      [[(0, 0, 0)], [(0, 0, 0)], [(0, 0, 0)]]
      [[(0, 0)], [(0, 0)], [(0, 0)]] (1280, 720) =
    { K := eye3, dist := [1, 2, 3, 4, 5], img_size := (1280, 720), rms_error := 0,
      rvecs := some [], tvecs := some [] } := rfl

/-- C7 (amended): the failure boundary at 4 exists, but in the batch
pipeline's guard (process_from_images), which raises `RuntimeError` for
fewer than 4 valid sets and passes at 4; the calibration call itself never
checks the count and always returns the engine's result. -/
theorem claim_C7_boundary_amended (n : ℕ)
    (engine : List (List Pt3) → List (List Pt2) → (ℤ × ℤ) → SingleEngineOut)
    (objpoints : List (List Pt3)) (imgpoints : List (List Pt2)) (sz : ℤ × ℤ) :
    (n < 4 → enoughPairsGuard n =
      .error (("Not enough valid images: ".data) ++ natChars n)) ∧
    (4 ≤ n → enoughPairsGuard n = .ok ()) ∧
    CameraCalibrator.calibrate engine objpoints imgpoints sz =
      { K := (engine objpoints imgpoints sz).K,
        dist := (engine objpoints imgpoints sz).dist,
        img_size := sz, rms_error := (engine objpoints imgpoints sz).rms,
        rvecs := some (engine objpoints imgpoints sz).rvecs,
        tvecs := some (engine objpoints imgpoints sz).tvecs } := by
  refine ⟨fun hlt => ?_, fun hge => ?_, rfl⟩
  · unfold enoughPairsGuard
    rw [if_pos hlt]
  · unfold enoughPairsGuard
    rw [if_neg (by omega)]

/-- C7 witness: the guard fails at 3 with the RuntimeError message and
passes at 4; the calibrate call returns the engine result. -/
theorem claim_C7_boundary_amended_witness :
    enoughPairsGuard 3 = .error (("Not enough valid images: ".data) ++ natChars 3) ∧
    enoughPairsGuard 4 = .ok () ∧
    CameraCalibrator.calibrate wEngine [] [] (1280, 720) =
      { K := (wEngine [] [] (1280, 720)).K, dist := (wEngine [] [] (1280, 720)).dist,
        img_size := (1280, 720), rms_error := (wEngine [] [] (1280, 720)).rms,
        rvecs := some (wEngine [] [] (1280, 720)).rvecs,
        tvecs := some (wEngine [] [] (1280, 720)).tvecs } :=
  ⟨(claim_C7_boundary_amended 3 wEngine [] [] (1280, 720)).1 (by decide),
   (claim_C7_boundary_amended 4 wEngine [] [] (1280, 720)).2.1 (by decide),
   (claim_C7_boundary_amended 4 wEngine [] [] (1280, 720)).2.2⟩

/-- C9: the k4/k5/k6 accessors are total for both distortion models: with a
5-coefficient vector they return the defined default 0.0; with an
8-coefficient vector they return the stored coefficients. -/
theorem claim_C9_distortion_defaults (p : CameraParams)
    (h : p.dist.length = 5 ∨ p.dist.length = 8) :
    (p.dist.length = 5 → p.k4 = 0 ∧ p.k5 = 0 ∧ p.k6 = 0) ∧
    (p.dist.length = 8 →
      p.k4 = p.dist.getD 5 0 ∧ p.k5 = p.dist.getD 6 0 ∧ p.k6 = p.dist.getD 7 0) := by
  constructor
  · intro h5
    unfold CameraParams.k4 CameraParams.k5 CameraParams.k6
    rw [List.getD_eq_default _ _ (by omega), List.getD_eq_default _ _ (by omega),
      List.getD_eq_default _ _ (by omega)]
    exact ⟨rfl, rfl, rfl⟩
  · intro _
    exact ⟨rfl, rfl, rfl⟩

/-- C9 witness: the accessor contract at the concrete 5-coefficient camera
`wCam`. -/
theorem claim_C9_distortion_defaults_witness :
    (wCam.dist.length = 5 ∨ wCam.dist.length = 8) ∧
    ((wCam.dist.length = 5 → wCam.k4 = 0 ∧ wCam.k5 = 0 ∧ wCam.k6 = 0) ∧
     (wCam.dist.length = 8 →
       wCam.k4 = wCam.dist.getD 5 0 ∧ wCam.k5 = wCam.dist.getD 6 0 ∧
       wCam.k6 = wCam.dist.getD 7 0)) :=
  ⟨by decide, claim_C9_distortion_defaults wCam (by decide)⟩

theorem pyTrunc_nonneg (q : ℚ) (h : 0 ≤ q) : 0 ≤ pyTrunc q :=
  Int.tdiv_nonneg (Rat.num_nonneg.mpr h) (Int.ofNat_nonneg q.den)

theorem cellOf_mem_grid (w h : ℤ) (gw gh : ℕ) (pt : Pt2)
    (hw : 0 < w) (hh : 0 < h) (hgw : 0 < gw) (hgh : 0 < gh)
    (hx : 0 ≤ pt.1) (hy : 0 ≤ pt.2) :
    cellOf w h gw gh pt ∈ (Finset.Ico (0 : ℤ) gh) ×ˢ (Finset.Ico (0 : ℤ) gw) := by
  have hxnn : 0 ≤ pyTrunc pt.1 := pyTrunc_nonneg _ hx
  have hynn : 0 ≤ pyTrunc pt.2 := pyTrunc_nonneg _ hy
  have hcy : (0 : ℤ) ≤ pyTrunc (((pyTrunc pt.2 : ℤ) : ℚ) / ((h : ℚ) / (gh : ℚ))) := by
    apply pyTrunc_nonneg
    apply div_nonneg
    · exact_mod_cast hynn
    · apply div_nonneg
      · exact_mod_cast hh.le
      · positivity
  have hcx : (0 : ℤ) ≤ pyTrunc (((pyTrunc pt.1 : ℤ) : ℚ) / ((w : ℚ) / (gw : ℚ))) := by
    apply pyTrunc_nonneg
    apply div_nonneg
    · exact_mod_cast hxnn
    · apply div_nonneg
      · exact_mod_cast hw.le
      · positivity
  rw [show cellOf w h gw gh pt =
    (min (pyTrunc (((pyTrunc pt.2 : ℤ) : ℚ) / ((h : ℚ) / (gh : ℚ)))) ((gh : ℤ) - 1),
     min (pyTrunc (((pyTrunc pt.1 : ℤ) : ℚ) / ((w : ℚ) / (gw : ℚ)))) ((gw : ℤ) - 1)) from rfl]
  rw [Finset.mem_product]
  constructor
  · rw [Finset.mem_Ico]
    exact ⟨le_min hcy (by omega), lt_of_le_of_lt (min_le_right _ _) (by omega)⟩
  · rw [Finset.mem_Ico]
    exact ⟨le_min hcx (by omega), lt_of_le_of_lt (min_le_right _ _) (by omega)⟩

theorem coveredCells_subset_grid (imgpoints : List (List Pt2)) (w h : ℤ) (gw gh : ℕ)
    (hw : 0 < w) (hh : 0 < h) (hgw : 0 < gw) (hgh : 0 < gh)
    (hpts : ∀ pts ∈ imgpoints, ∀ pt ∈ pts, 0 ≤ pt.1 ∧ 0 ≤ pt.2) :
    coveredCells imgpoints w h gw gh ⊆ (Finset.Ico (0 : ℤ) gh) ×ˢ (Finset.Ico (0 : ℤ) gw) := by
  intro cell hc
  unfold coveredCells at hc
  rw [List.mem_toFinset, List.mem_flatten] at hc
  obtain ⟨l, hl, hcell⟩ := hc
  obtain ⟨pts, hpts2, rfl⟩ := List.mem_map.mp hl
  obtain ⟨pt, hpt, rfl⟩ := List.mem_map.mp hcell
  obtain ⟨hx, hy⟩ := hpts pts hpts2 pt hpt
  exact cellOf_mem_grid w h gw gh pt hw hh hgw hgh hx hy

/-- C10: with positive image and grid dimensions and detected points at
nonnegative pixel coordinates (the code's domain of definedness — a zero
grid or negative coordinates make the Python raise instead of returning a
ratio), the coverage ratio lies in [0, 1], and appending one more point set
never decreases it. -/
theorem claim_C10_coverage (imgpoints : List (List Pt2)) (extra : List Pt2)
    (w h : ℤ) (gw gh : ℕ)
    (hw : 0 < w) (hh : 0 < h) (hgw : 0 < gw) (hgh : 0 < gh)
    (hpts : ∀ pts ∈ imgpoints, ∀ pt ∈ pts, 0 ≤ pt.1 ∧ 0 ≤ pt.2) :
    0 ≤ check_calibration_coverage imgpoints (w, h) (gw, gh) ∧
    check_calibration_coverage imgpoints (w, h) (gw, gh) ≤ 1 ∧
    check_calibration_coverage imgpoints (w, h) (gw, gh) ≤
      check_calibration_coverage (imgpoints ++ [extra]) (w, h) (gw, gh) := by
  have hD : (0 : ℚ) < (gw : ℚ) * (gh : ℚ) := by positivity
  refine ⟨?_, ?_, ?_⟩
  · unfold check_calibration_coverage
    positivity
  · unfold check_calibration_coverage
    rw [div_le_one hD]
    have hsub := coveredCells_subset_grid imgpoints w h gw gh hw hh hgw hgh hpts
    have hcard := Finset.card_le_card hsub
    rw [Finset.card_product] at hcard
    have hIh : (Finset.Ico (0 : ℤ) (gh : ℤ)).card = gh := by
      rw [Int.card_Ico]
      omega
    have hIw : (Finset.Ico (0 : ℤ) (gw : ℤ)).card = gw := by
      rw [Int.card_Ico]
      omega
    rw [hIh, hIw] at hcard
    calc ((coveredCells imgpoints w h gw gh).card : ℚ) ≤ ((gh * gw : ℕ) : ℚ) := by
          exact_mod_cast hcard
      _ = (gw : ℚ) * (gh : ℚ) := by push_cast; ring
  · unfold check_calibration_coverage
    rw [div_le_div_iff_of_pos_right hD]
    have hsub2 : coveredCells imgpoints w h gw gh ⊆
        coveredCells (imgpoints ++ [extra]) w h gw gh := by
      intro cell hc
      unfold coveredCells at hc ⊢
      rw [List.mem_toFinset] at hc ⊢
      rw [List.map_append, List.flatten_append]
      exact List.mem_append_left _ hc
    exact_mod_cast Finset.card_le_card hsub2

/-- C10 witness: the coverage bounds and monotonicity at a concrete point
set, image size 1280×720 and the default 4×3 grid. -/
theorem claim_C10_coverage_witness :
    (0 : ℤ) < 1280 ∧ (0 : ℤ) < 720 ∧ (0 : ℕ) < 4 ∧ (0 : ℕ) < 3 ∧
    (∀ pts ∈ [[((10 : ℚ), (10 : ℚ)), ((300 : ℚ), (300 : ℚ))]],
      ∀ pt ∈ pts, 0 ≤ pt.1 ∧ 0 ≤ pt.2) ∧
    (0 ≤ check_calibration_coverage [[((10 : ℚ), (10 : ℚ)), ((300 : ℚ), (300 : ℚ))]]
        (1280, 720) (4, 3) ∧
     check_calibration_coverage [[((10 : ℚ), (10 : ℚ)), ((300 : ℚ), (300 : ℚ))]]
        (1280, 720) (4, 3) ≤ 1 ∧
     check_calibration_coverage [[((10 : ℚ), (10 : ℚ)), ((300 : ℚ), (300 : ℚ))]]
        (1280, 720) (4, 3) ≤
       check_calibration_coverage ([[((10 : ℚ), (10 : ℚ)), ((300 : ℚ), (300 : ℚ))]] ++
         [[((600 : ℚ), (600 : ℚ))]]) (1280, 720) (4, 3)) :=
  ⟨by decide, by decide, by decide, by decide, by decide,
   claim_C10_coverage [[((10 : ℚ), (10 : ℚ)), ((300 : ℚ), (300 : ℚ))]]
     [((600 : ℚ), (600 : ℚ))] 1280 720 4 3
     (by decide) (by decide) (by decide) (by decide) (by decide)⟩

end SealCalib
